import Mathlib

/-!
# hrms: startup sequence of the HR-management backend (src/main.go)

A shallow embedding of `main.go`: configuration selection (`InitConfig`), the
per-branch-company database registry (`InitGorm`), the route table
(`routerInit`, `htmlInit`, `InitGin`) and the bootstrap sequence (`main`).

External code (the operating system, viper, the gorm MySQL driver, the gin
HTTP server) is not part of the program; it enters the model as the fields of
`Sys`, and every theorem holds for all values of those fields.
-/

namespace Hrms

/-! ## Go standard library: `strings.Split` with a one-byte separator -/

/-- Pieces of a character sequence between occurrences of `sep`, as `strings.Split`
returns them: nothing is trimmed, empty pieces are kept, and a sequence without
`sep` (the empty one included) is returned as its only piece. -/
def splitChars (sep : Char) : List Char → List (List Char)
  | [] => [[]]
  | c :: cs =>
    if c = sep then [] :: splitChars sep cs
    else
      match splitChars sep cs with
      | [] => [[c]]
      | w :: ws => (c :: w) :: ws

/-- Go `strings.Split(s, sep)` for a separator of one byte. An ASCII separator such as
the comma never occurs inside a multi-byte UTF-8 sequence, so splitting the characters
and splitting the bytes give the same pieces. -/
def Split (s : String) (sep : Char) : List String :=
  (splitChars sep s.data).map String.mk

/-- Go `strings.Count(s, sep)` for a separator of one byte. -/
def Count (s : String) (sep : Char) : Nat :=
  s.data.count sep

/-- Go `strings.Join(elems, sep)` for a separator of one byte. -/
def Join (elems : List String) (sep : Char) : String :=
  String.mk (List.intercalate [sep] (elems.map String.data))

/-! ## Package `resource`: configuration and package-level variables -/

/-- Modelled from the spec: the declaration of `resource.Config` is not in the source;
the `Db` section carries "database credentials/host/port and a comma-separated list of
per-branch database names". Every field is held as the text `%v` prints for it. -/
structure Db where
  User : String
  Password : String
  Host : String
  Port : String
  DbName : String
deriving DecidableEq, Repr

/-- Modelled from the spec: the `Gin` section of `resource.Config` ("server port"),
held as the text `%v` prints for it. -/
structure Gin where
  Port : String
deriving DecidableEq, Repr

/-- Modelled from the spec: `resource.Config`, the unmarshalled YAML file. -/
structure Config where
  Gin : Hrms.Gin
  Db : Hrms.Db
deriving DecidableEq, Repr

/-- A configuring call on a `*viper.Viper` instance. -/
inductive ViperCall where
  | AddConfigPath (p : String)
  | SetConfigType (t : String)
  | SetConfigName (n : String)
deriving DecidableEq, Repr

/-- Package-level state the startup code reads and writes, together with two records
of what the program did to external code: the DSNs passed to `gorm.Open` so far
(`opened`, oldest first) and the configuring calls made on the viper instance of the
latest `InitConfig` call (`viper`, oldest first).
`HrmsConf` and `DefaultDb` are pointers (`none` is nil); `DbMapper` is an
allocated `map[string]*gorm.DB`. -/
structure World (δ : Type) where
  HrmsConf : Option Config
  DbMapper : String → Option δ
  DefaultDb : Option δ
  opened : List String
  viper : List ViperCall

/-! ## The HTTP route table -/

inductive Method where
  | GET | POST | DELETE | HEAD
deriving DecidableEq, Repr

/-- One registered route: method, absolute path and the name of its handler. -/
structure Route where
  method : Method
  path : String
  handler : String
deriving DecidableEq, Repr

/-- What `server.NoRoute` was given: the handler calls `c.HTML(status, template, nil)`. -/
structure NoRoute where
  status : Nat
  template : String
deriving DecidableEq, Repr

/-- State of a `*gin.Engine` as far as `main.go` configures it. -/
structure Engine where
  routes : List Route
  htmlGlob : Option String
  noRoute : Option NoRoute
deriving DecidableEq, Repr

/-- A `*gin.RouterGroup`: the base path routes are registered under.
The engine itself is the group with the empty base path. -/
abbrev RouterGroup := String

/-- The calls `group.GET/POST/DELETE(rel, h)`: gin registers the handler on the join of
the group's base path and `rel`. Every relative path of `main.go` starts with a slash and
no base path ends with one, so the join is the concatenation. -/
def handle (m : Method) (g : RouterGroup) (rel handler : String) (e : Engine) : Engine :=
  { e with routes := e.routes ++ [⟨m, g ++ rel, handler⟩] }

/-- The call `server.StaticFS(rel, fs)`: gin registers a GET and a HEAD route on
`rel/*filepath`. -/
def StaticFS (rel dir : String) (e : Engine) : Engine :=
  { e with routes := e.routes ++
      [⟨Method.GET, rel ++ "/*filepath", "static:" ++ dir⟩,
       ⟨Method.HEAD, rel ++ "/*filepath", "static:" ++ dir⟩] }

/-! ## External code -/

/-- Everything outside the program. `ε` is the type of Go `error` values, `δ` the
type of `*gorm.DB` handles.
* `Getenv` is `os.Getenv`;
* `ReadInConfig` and `Unmarshal` are the viper methods, as functions of the calls
  that configured the viper instance;
* `gormOpen n d` is the outcome of `gorm.Open(mysql.Open(d), ...)` when it is the
  call number `n` (from 0) of the process;
* `ParseGlob p` is the error, if any, of parsing the template files that match the
  pattern `p`, as gin's `LoadHTMLGlob` does (no file matching is an error);
* `Run addr e` is what `server.Run(addr)` returns if it returns (the HTTP server of
  the Go library only ever returns a non-nil error; the model does not rely on it). -/
structure Sys (ε δ : Type) where
  Getenv : String → String
  ReadInConfig : List ViperCall → Option ε
  Unmarshal : List ViperCall → Except ε Config
  gormOpen : Nat → String → Except ε δ
  ParseGlob : String → Option ε
  Run : String → Engine → Option ε

/-! ## `InitConfig` -/

/-- The calls `InitConfig` makes on its viper instance before reading the file:
the two `if` statements on the value of `HRMS_ENV` are independent of each other. -/
def viperSetup (env : String) : List ViperCall :=
  [ViperCall.AddConfigPath "./config", ViperCall.SetConfigType "yaml"]
    ++ (if env = "" ∨ env = "dev" then [ViperCall.SetConfigName "config-dev"] else [])
    ++ (if env = "prod" then [ViperCall.SetConfigName "config-prod"] else [])

/-- The names given to `SetConfigName` in a sequence of viper calls, in call order. -/
def configNames (calls : List ViperCall) : List String :=
  calls.filterMap fun
    | ViperCall.SetConfigName n => some n
    | _ => none

/-- Go `InitConfig`: returns the error (`none` is nil) and the state it leaves. -/
def InitConfig {ε δ : Type} (sys : Sys ε δ) (w : World δ) : Option ε × World δ :=
  let env := sys.Getenv "HRMS_ENV"
  let vip := viperSetup env
  let w0 := { w with viper := vip }
  match sys.ReadInConfig vip with
  | some err => (some err, w0)
  | none =>
    match sys.Unmarshal vip with
    | .error err => (some err, w0)
    | .ok config => (none, { w0 with HrmsConf := some config })

/-! ## `routerInit`, `htmlInit`, `InitGin` -/

/-- Go `routerInit`. -/
def routerInit (server : Engine) : Engine :=
  let root : RouterGroup := ""
  let e := handle .GET root "/ping" "handler.Ping" server
  let e := handle .GET root "/authority_render/:modelName" "handler.RenderAuthority" e
  let e := handle .GET root "/index" "handler.Index" e
  let accountGroup : RouterGroup := root ++ "/account"
  let e := handle .POST accountGroup "/login" "handler.Login" e
  let e := handle .POST accountGroup "/quit" "handler.Quit" e
  let departGroup : RouterGroup := root ++ "/depart"
  let e := handle .POST departGroup "/create" "handler.DepartCreate" e
  let e := handle .DELETE departGroup "/del/:dep_id" "handler.DepartDel" e
  let e := handle .POST departGroup "/edit" "handler.DepartEdit" e
  let e := handle .GET departGroup "/query/:dep_id" "handler.DepartQuery" e
  let rankGroup : RouterGroup := root ++ "/rank"
  let e := handle .POST rankGroup "/create" "handler.RankCreate" e
  let e := handle .DELETE rankGroup "/del/:rank_id" "handler.RankDel" e
  let e := handle .POST rankGroup "/edit" "handler.RankEdit" e
  let e := handle .GET rankGroup "/query/:rank_id" "handler.RankQuery" e
  let staffGroup : RouterGroup := root ++ "/staff"
  let e := handle .POST staffGroup "/create" "handler.StaffCreate" e
  let e := handle .DELETE staffGroup "/del/:staff_id" "handler.StaffDel" e
  let e := handle .POST staffGroup "/edit" "handler.StaffEdit" e
  let e := handle .GET staffGroup "/query/:staff_id" "handler.StaffQuery" e
  let e := handle .GET staffGroup "/query_by_name/:staff_name" "handler.StaffQueryByName" e
  let e := handle .GET staffGroup "/query_by_dep/:dep_name" "handler.StaffQueryByDep" e
  let passwordGroup : RouterGroup := root ++ "/password"
  let e := handle .GET passwordGroup "/query/:staff_id" "handler.PasswordQuery" e
  let e := handle .POST passwordGroup "/edit" "handler.PasswordEdit" e
  let authorityGroup : RouterGroup := root ++ "/authority"
  let e := handle .POST authorityGroup "/create" "handler.AddAuthorityDetail" e
  let e := handle .POST authorityGroup "/edit" "handler.UpdateAuthorityDetailById" e
  let e := handle .GET authorityGroup "/query_by_user_type/:user_type"
    "handler.GetAuthorityDetailListByUserType" e
  let e := handle .POST authorityGroup "/query_by_user_type_and_model"
    "handler.GetAuthorityDetailByUserTypeAndModel" e
  let e := handle .POST authorityGroup "/set_admin/:staff_id" "handler.SetAdminByStaffId" e
  let e := handle .POST authorityGroup "/set_normal/:staff_id" "handler.SetNormalByStaffId" e
  let notificationGroup : RouterGroup := root ++ "/notification"
  let e := handle .POST notificationGroup "/create" "handler.CreateNotification" e
  let e := handle .DELETE notificationGroup "/delete/:notice_id" "handler.DeleteNotificationById" e
  let e := handle .POST notificationGroup "/edit" "handler.UpdateNotificationById" e
  let e := handle .GET notificationGroup "/query/:notice_title" "handler.GetNotificationByTitle" e
  let companyGroup : RouterGroup := root ++ "/company"
  let e := handle .GET companyGroup "/query" "handler.BranchCompanyQuery" e
  let salaryGroup : RouterGroup := root ++ "/salary"
  let e := handle .POST salaryGroup "/create" "handler.CreateSalary" e
  let e := handle .DELETE salaryGroup "/delete/:salary_id" "handler.DelSalary" e
  let e := handle .POST salaryGroup "/edit" "handler.UpdateSalaryById" e
  let e := handle .GET salaryGroup "/query/:staff_id" "handler.GetSalaryByStaffId" e
  let salaryRecordGroup : RouterGroup := root ++ "/salary_record"
  let e := handle .POST salaryRecordGroup "/create" "handler.CreateSalaryRecord" e
  let e := handle .DELETE salaryRecordGroup "/delete/:salary_record_id" "handler.DelSalaryRecord" e
  let e := handle .POST salaryRecordGroup "/edit" "handler.UpdateSalaryRecordById" e
  let e := handle .GET salaryRecordGroup "/query/:staff_id" "handler.GetSalaryRecordByStaffId" e
  let e := handle .GET salaryRecordGroup "/get_salary_record_is_pay_by_id/:id"
    "handler.GetSalaryRecordIsPayById" e
  let e := handle .GET salaryRecordGroup "/pay_salary_record_by_id/:id"
    "handler.PaySalaryRecordById" e
  e

/-- Go `htmlInit`. `server.LoadHTMLGlob(pattern)` parses the templates through
`template.Must`, which panics on the error of `ParseGlob`: the result `.error v` is that
panic, raised before `NoRoute` is reached. -/
def htmlInit {ε : Type} (ParseGlob : String → Option ε) (server : Engine) : Except ε Engine :=
  let e := StaticFS "/static" "./static" server
  let e := StaticFS "/views" "./views" e
  match ParseGlob "views/*" with
  | some v => .error v
  | none =>
    let e := { e with htmlGlob := some "views/*" }
    .ok { e with noRoute := some ⟨404, "404.html"⟩ }

/-- Go `gin.Default()`: an engine without routes. -/
def ginDefault : Engine := ⟨[], none, none⟩

/-- What a call of a startup function did: it returned an error (`none` is nil), or
it did not return because a panic with value `v` was raised inside it. -/
inductive StepResult (ε : Type) where
  | returned (err : Option ε)
  | panicked (v : ε)
deriving DecidableEq, Repr

/-- Go `InitGin`, with `resource.HrmsConf` pointing at `c`: the panic of `htmlInit`,
or what it returns, if `server.Run` returns. -/
def InitGin {ε δ : Type} (sys : Sys ε δ) (c : Config) (w : World δ) :
    StepResult ε × World δ :=
  let server := ginDefault
  match htmlInit sys.ParseGlob server with
  | .error v => (.panicked v, w)
  | .ok server =>
    let server := routerInit server
    let err := sys.Run (":" ++ c.Gin.Port) server
    (.returned err, w)

/-! ## `InitGorm` -/

/-- The `fmt.Sprintf` call of `InitGorm`. -/
def dsn (c : Db) (dbName : String) : String :=
  c.User ++ ":" ++ c.Password ++ "@tcp(" ++ c.Host ++ ":" ++ c.Port ++ ")/" ++ dbName
    ++ "?charset=utf8mb4&parseTime=True&loc=Local"

/-- The `for index, dbName := range dbNameList` loop of `InitGorm`, from position
`index` on, `dbNames` being the names not yet visited. -/
def InitGorm.loop {ε δ : Type} (sys : Sys ε δ) (c : Config) :
    Nat → List String → World δ → Option ε × World δ
  | _, [], w => (none, w)
  | index, dbName :: rest, w =>
    let d := dsn c.Db dbName
    let w0 := { w with opened := w.opened ++ [d] }
    match sys.gormOpen w.opened.length d with
    | .error err => (some err, w0)
    | .ok db =>
      let w1 := { w0 with DbMapper := Function.update w0.DbMapper dbName (some db) }
      let w2 := if index = 0 then { w1 with DefaultDb := some db } else w1
      InitGorm.loop sys c (index + 1) rest w2

/-- Go `InitGorm`, with `resource.HrmsConf` pointing at `c`: returns the error
(`none` is nil) and the state it leaves. -/
def InitGorm {ε δ : Type} (sys : Sys ε δ) (c : Config) (w : World δ) : Option ε × World δ :=
  let dbNames := c.Db.DbName
  let dbNameList := Split dbNames ','
  InitGorm.loop sys c 0 dbNameList w

/-! ## `main` -/

inductive Step where
  | InitConfig | InitGorm | InitGin
deriving DecidableEq, Repr

/-- How `main` ends: it returns; it panics with the error a step returned
(`panic(err)`); a panic raised inside a step ends it; or the Go runtime panics on
reading through a nil `resource.HrmsConf`. -/
inductive Outcome (ε : Type) where
  | returned
  | panicked (err : ε)
  | stepPanicked (v : ε)
  | nilDeref
deriving DecidableEq, Repr

/-- A run of `main`: how it ended, the state it left, and the steps it called
with what each did, in call order. -/
structure MainRun (ε δ : Type) where
  outcome : Outcome ε
  world : World δ
  steps : List (Step × StepResult ε)

/-- Go `main`. -/
def main {ε δ : Type} (sys : Sys ε δ) (w : World δ) : MainRun ε δ :=
  match InitConfig sys w with
  | (some err, w1) => ⟨.panicked err, w1, [(.InitConfig, .returned (some err))]⟩
  | (none, w1) =>
    match w1.HrmsConf with
    | none => ⟨.nilDeref, w1, [(.InitConfig, .returned none)]⟩
    | some c =>
      match InitGorm sys c w1 with
      | (some err, w2) =>
        ⟨.panicked err, w2, [(.InitConfig, .returned none), (.InitGorm, .returned (some err))]⟩
      | (none, w2) =>
        match w2.HrmsConf with
        | none => ⟨.nilDeref, w2, [(.InitConfig, .returned none), (.InitGorm, .returned none)]⟩
        | some c2 =>
          match InitGin sys c2 w2 with
          | (.panicked v, w3) =>
            ⟨.stepPanicked v, w3,
              [(.InitConfig, .returned none), (.InitGorm, .returned none),
               (.InitGin, .panicked v)]⟩
          | (.returned (some err), w3) =>
            ⟨.panicked err, w3,
              [(.InitConfig, .returned none), (.InitGorm, .returned none),
               (.InitGin, .returned (some err))]⟩
          | (.returned none, w3) =>
            ⟨.returned, w3,
              [(.InitConfig, .returned none), (.InitGorm, .returned none),
               (.InitGin, .returned none)]⟩

/-- The run ended in a panic, of whatever origin. -/
def MainRun.aborted {ε δ : Type} (r : MainRun ε δ) : Bool :=
  match r.outcome with
  | .returned => false
  | _ => true

/-- Some step of the run returned a non-nil error. -/
def MainRun.stepErred {ε δ : Type} (r : MainRun ε δ) : Bool :=
  r.steps.any fun x =>
    match x.2 with
    | .returned (some _) => true
    | _ => false

/-! ## Reading the route table -/

/-- The route table `InitGin` hands to `server.Run`: the routes of the engine after
`htmlInit` (its templates loading) and `routerInit`. -/
def routeTable : List Route :=
  match htmlInit (fun _ => (none : Option Unit)) ginDefault with
  | .ok server => (routerInit server).routes
  | .error _ => []

/-- The entity route groups of `routerInit` (the account group and the routes
registered on the engine itself are not entity groups). -/
def entityGroups : List RouterGroup :=
  ["/depart", "/rank", "/staff", "/password", "/authority", "/notification", "/company",
   "/salary", "/salary_record"]

/-- The path of the route starts with the given text. -/
def pathStartsWith (pre : String) (r : Route) : Bool :=
  pre.data.isPrefixOf r.path.data

/-- The route lies under the path prefix of group `g`. -/
def under (g : RouterGroup) (r : Route) : Bool :=
  pathStartsWith (g ++ "/") r

/-- Some route of `t` under group `g` has a path that begins, after the group prefix,
with the keyword `kw` (create, edit, del, query), whatever its method. -/
def hasKind (t : List Route) (g : RouterGroup) (kw : String) : Bool :=
  t.any fun r => pathStartsWith (g ++ "/" ++ kw) r

/-- Some route of `t` under group `g` has method `m` and a path that begins, after
the group prefix, with the keyword `kw`. -/
def hasEndpoint (t : List Route) (m : Method) (g : RouterGroup) (kw : String) : Bool :=
  t.any fun r => r.method == m && pathStartsWith (g ++ "/" ++ kw) r

/-- Some route of `t` under group `g` has method `m`. -/
def hasMethod (t : List Route) (m : Method) (g : RouterGroup) : Bool :=
  t.any fun r => r.method == m && under g r

/-- Group `g` has a create, an edit, a delete and a query endpoint in `t`: the reading
of "endpoint" by path keyword, with a route of method DELETE also counting as a delete
endpoint. -/
def hasAllFour (t : List Route) (g : RouterGroup) : Bool :=
  hasKind t g "create" && hasKind t g "edit"
    && (hasKind t g "del" || hasMethod t Method.DELETE g)
    && hasKind t g "query"

/-! ## Auxiliary definitions for the statements on `InitGorm` -/

/-- The state one iteration of the loop leaves when its open succeeded with `db`. -/
def InitGorm.iterOk {δ : Type} (c : Config) (index : Nat) (dbName : String) (db : δ)
    (w : World δ) : World δ :=
  let w0 := { w with opened := w.opened ++ [dsn c.Db dbName] }
  let w1 := { w0 with DbMapper := Function.update w0.DbMapper dbName (some db) }
  if index = 0 then { w1 with DefaultDb := some db } else w1

/-- The registry after storing the given (name, handle) pairs, in order. -/
def register {δ : Type} (m : String → Option δ) (entries : List (String × δ)) :
    String → Option δ :=
  entries.foldl (fun m p => Function.update m p.1 (some p.2)) m

/-! ## Concrete systems, for evaluating the definitions -/

/-- A sample configuration with three branch databases. -/
def sampleConfig (names : String) : Config :=
  ⟨⟨"8888"⟩, ⟨"root", "pw", "127.0.0.1", "3306", names⟩⟩

/-- A driver that hands out the call number as handle and fails, with the DSN as
error, on the calls whose number is in `bad`. -/
def sampleSys (env names : String) (bad : List Nat) : Sys String Nat where
  Getenv := fun k => if k = "HRMS_ENV" then env else ""
  ReadInConfig := fun _ => none
  Unmarshal := fun _ => .ok (sampleConfig names)
  gormOpen := fun n d => if n ∈ bad then .error d else .ok n
  ParseGlob := fun _ => none
  Run := fun _ _ => some "listen: address in use"

/-- The state before `main`: no configuration, an empty registry, no default. -/
def emptyWorld : World Nat := ⟨none, fun _ => none, none, [], []⟩

/-- Three branch databases, the first name repeated at the end. -/
def demoConfig : Config := sampleConfig "a,b,a"

/-- A system in which every open succeeds. -/
def demoSys : Sys String Nat := sampleSys "" "a,b,a" []

/-- A system in which the second open (call number 1) fails. -/
def failingSys : Sys String Nat := sampleSys "" "a,b,a" [1]

/-- An empty `Db.DbName`. -/
def blankConfig : Config := sampleConfig ""

/-- A system for the empty `Db.DbName`, every open succeeding. -/
def blankSys : Sys String Nat := sampleSys "" "" []

/-- Three names, the second repeated. -/
def repeatConfig : Config := sampleConfig "a,b,b"

/-- A system for `repeatConfig`, every open succeeding. -/
def repeatSys : Sys String Nat := sampleSys "" "a,b,b" []

/-- A system whose `HRMS_ENV` is neither empty, dev nor prod. -/
def stagingSys : Sys String Nat := sampleSys "staging" "a,b,a" []

/-- A system in which no file matches the template pattern. -/
def noViewsSys : Sys String Nat :=
  { demoSys with ParseGlob := fun _ => some "html/template: pattern matches no files" }

/-! ## Lemmas on `strings.Split` -/

theorem splitChars_ne_nil (sep : Char) (l : List Char) : splitChars sep l ≠ [] := by
  cases l with
  | nil => simp [splitChars]
  | cons c cs =>
    unfold splitChars
    split
    · simp
    · split <;> simp

theorem splitChars_length (sep : Char) (l : List Char) :
    (splitChars sep l).length = l.count sep + 1 := by
  induction l with
  | nil => simp [splitChars]
  | cons c cs ih =>
    unfold splitChars
    by_cases h : c = sep
    · subst h
      simp [ih]
    · have hc : (c == sep) = false := by simpa using h
      rw [if_neg h, List.count_cons, hc]
      cases hs : splitChars sep cs with
      | nil => exact absurd hs (splitChars_ne_nil sep cs)
      | cons x xs =>
        rw [hs] at ih
        simpa using ih

theorem splitChars_intercalate (sep : Char) (l : List Char) :
    List.intercalate [sep] (splitChars sep l) = l := by
  induction l with
  | nil => simp [splitChars, List.intercalate]
  | cons c cs ih =>
    unfold splitChars
    by_cases h : c = sep
    · subst h
      rw [if_pos rfl]
      cases hs : splitChars c cs with
      | nil => exact absurd hs (splitChars_ne_nil c cs)
      | cons x xs =>
        rw [hs] at ih
        simp only [List.intercalate, List.intersperse, List.flatten] at ih ⊢
        simp [ih]
    · rw [if_neg h]
      cases hs : splitChars sep cs with
      | nil => exact absurd hs (splitChars_ne_nil sep cs)
      | cons x xs =>
        rw [hs] at ih
        cases xs with
        | nil =>
          simp only [List.intercalate, List.intersperse, List.flatten] at ih ⊢
          simpa using ih
        | cons y ys =>
          simp only [List.intercalate, List.intersperse, List.flatten] at ih ⊢
          simpa using ih

theorem Split_ne_nil (s : String) (sep : Char) : Split s sep ≠ [] := by
  simp [Split, splitChars_ne_nil]

theorem Split_length (s : String) (sep : Char) : (Split s sep).length = Count s sep + 1 := by
  simp [Split, Count, splitChars_length]

theorem Join_Split (s : String) (sep : Char) : Join (Split s sep) sep = s := by
  have h : (List.map String.data (Split s sep)) = splitChars sep s.data := by
    simp [Split, Function.comp_def]
  simp [Join, h, splitChars_intercalate]

/-! ## Lemmas on the loop of `InitGorm` -/

section Loop

variable {ε δ : Type}

theorem iterOk_opened (c : Config) (index : Nat) (dbName : String) (db : δ) (w : World δ) :
    (InitGorm.iterOk c index dbName db w).opened = w.opened ++ [dsn c.Db dbName] := by
  unfold InitGorm.iterOk
  split <;> rfl

theorem iterOk_DbMapper (c : Config) (index : Nat) (dbName : String) (db : δ) (w : World δ) :
    (InitGorm.iterOk c index dbName db w).DbMapper
      = Function.update w.DbMapper dbName (some db) := by
  unfold InitGorm.iterOk
  split <;> rfl

theorem iterOk_HrmsConf (c : Config) (index : Nat) (dbName : String) (db : δ) (w : World δ) :
    (InitGorm.iterOk c index dbName db w).HrmsConf = w.HrmsConf := by
  unfold InitGorm.iterOk
  split <;> rfl

theorem iterOk_DefaultDb_zero (c : Config) (dbName : String) (db : δ) (w : World δ) :
    (InitGorm.iterOk c 0 dbName db w).DefaultDb = some db := by
  simp [InitGorm.iterOk]

theorem iterOk_DefaultDb_succ (c : Config) (index : Nat) (dbName : String) (db : δ)
    (w : World δ) (h : index ≠ 0) :
    (InitGorm.iterOk c index dbName db w).DefaultDb = w.DefaultDb := by
  simp [InitGorm.iterOk, h]

theorem loop_nil (sys : Sys ε δ) (c : Config) (index : Nat) (w : World δ) :
    InitGorm.loop sys c index [] w = (none, w) := by
  simp [InitGorm.loop]

theorem loop_cons_ok (sys : Sys ε δ) (c : Config) (index : Nat) (dbName : String)
    (rest : List String) (w : World δ) (db : δ)
    (h : sys.gormOpen w.opened.length (dsn c.Db dbName) = .ok db) :
    InitGorm.loop sys c index (dbName :: rest) w
      = InitGorm.loop sys c (index + 1) rest (InitGorm.iterOk c index dbName db w) := by
  simp only [InitGorm.loop, h, InitGorm.iterOk]

theorem loop_cons_error (sys : Sys ε δ) (c : Config) (index : Nat) (dbName : String)
    (rest : List String) (w : World δ) (err : ε)
    (h : sys.gormOpen w.opened.length (dsn c.Db dbName) = .error err) :
    InitGorm.loop sys c index (dbName :: rest) w
      = (some err, { w with opened := w.opened ++ [dsn c.Db dbName] }) := by
  simp only [InitGorm.loop, h]

/-- The loop never assigns `resource.HrmsConf`. -/
theorem loop_HrmsConf (sys : Sys ε δ) (c : Config) (index : Nat) (dbNames : List String)
    (w : World δ) : (InitGorm.loop sys c index dbNames w).2.HrmsConf = w.HrmsConf := by
  induction dbNames generalizing index w with
  | nil => simp [loop_nil]
  | cons n rest ih =>
    cases h : sys.gormOpen w.opened.length (dsn c.Db n) with
    | error err => rw [loop_cons_error sys c index n rest w err h]
    | ok db => rw [loop_cons_ok sys c index n rest w db h, ih, iterOk_HrmsConf]

/-- Iterations other than the one at index 0 leave `resource.DefaultDb` alone. -/
theorem loop_DefaultDb (sys : Sys ε δ) (c : Config) (index : Nat) (dbNames : List String)
    (w : World δ) (hi : index ≠ 0) :
    (InitGorm.loop sys c index dbNames w).2.DefaultDb = w.DefaultDb := by
  induction dbNames generalizing index w with
  | nil => simp [loop_nil]
  | cons n rest ih =>
    cases h : sys.gormOpen w.opened.length (dsn c.Db n) with
    | error err => rw [loop_cons_error sys c index n rest w err h]
    | ok db =>
      rw [loop_cons_ok sys c index n rest w db h, ih _ _ (Nat.succ_ne_zero index),
        iterOk_DefaultDb_succ c index n db w hi]

/-- A name the loop does not visit keeps its entry of `resource.DbMapper`. -/
theorem loop_DbMapper_frame (sys : Sys ε δ) (c : Config) (index : Nat)
    (dbNames : List String) (w : World δ) (name : String) (hn : name ∉ dbNames) :
    (InitGorm.loop sys c index dbNames w).2.DbMapper name = w.DbMapper name := by
  induction dbNames generalizing index w with
  | nil => simp [loop_nil]
  | cons n rest ih =>
    have hne : name ≠ n := fun h => hn (h ▸ List.mem_cons_self _ _)
    have hrest : name ∉ rest := fun h => hn (List.mem_cons_of_mem _ h)
    cases h : sys.gormOpen w.opened.length (dsn c.Db n) with
    | error err => rw [loop_cons_error sys c index n rest w err h]
    | ok db =>
      rw [loop_cons_ok sys c index n rest w db h, ih _ _ hrest, iterOk_DbMapper,
        Function.update_noteq hne]

/-- When the loop ends without error, every open it made succeeded: the one for
the name at position `k` is call number `w.opened.length + k`. -/
theorem loop_ok_opens (sys : Sys ε δ) (c : Config) (index : Nat) (dbNames : List String)
    (w : World δ) (h : (InitGorm.loop sys c index dbNames w).1 = none)
    (k : Nat) (name : String) (hk : dbNames[k]? = some name) :
    ∃ db, sys.gormOpen (w.opened.length + k) (dsn c.Db name) = .ok db := by
  induction dbNames generalizing index w k with
  | nil => simp at hk
  | cons n rest ih =>
    cases ho : sys.gormOpen w.opened.length (dsn c.Db n) with
    | error err =>
      rw [loop_cons_error sys c index n rest w err ho] at h
      simp at h
    | ok db =>
      rw [loop_cons_ok sys c index n rest w db ho] at h
      cases k with
      | zero =>
        simp at hk
        subst hk
        exact ⟨db, by simpa using ho⟩
      | succ j =>
        simp at hk
        obtain ⟨db2, h2⟩ := ih _ _ h j hk
        refine ⟨db2, ?_⟩
        rw [iterOk_opened] at h2
        simp only [List.length_append, List.length_singleton] at h2
        rw [← h2]
        congr 1
        omega

/-- When the loop ends without error, the DSNs it passed to the driver are those of
all its names, in order. -/
theorem loop_ok_opened (sys : Sys ε δ) (c : Config) (index : Nat) (dbNames : List String)
    (w : World δ) (h : (InitGorm.loop sys c index dbNames w).1 = none) :
    (InitGorm.loop sys c index dbNames w).2.opened
      = w.opened ++ dbNames.map (dsn c.Db) := by
  induction dbNames generalizing index w with
  | nil => simp [loop_nil]
  | cons n rest ih =>
    cases ho : sys.gormOpen w.opened.length (dsn c.Db n) with
    | error err =>
      rw [loop_cons_error sys c index n rest w err ho] at h
      simp at h
    | ok db =>
      rw [loop_cons_ok sys c index n rest w db ho] at h ⊢
      rw [ih _ _ h, iterOk_opened]
      simp

/-- When the loop ends without error, the registry holds for a name the handle
returned by the open made at the last position of that name. -/
theorem loop_ok_last (sys : Sys ε δ) (c : Config) (index : Nat) (dbNames : List String)
    (w : World δ) (h : (InitGorm.loop sys c index dbNames w).1 = none)
    (k : Nat) (name : String) (hk : dbNames[k]? = some name)
    (hlast : name ∉ dbNames.drop (k + 1)) (db : δ)
    (hdb : sys.gormOpen (w.opened.length + k) (dsn c.Db name) = .ok db) :
    (InitGorm.loop sys c index dbNames w).2.DbMapper name = some db := by
  induction dbNames generalizing index w k with
  | nil => simp at hk
  | cons n rest ih =>
    cases ho : sys.gormOpen w.opened.length (dsn c.Db n) with
    | error err =>
      rw [loop_cons_error sys c index n rest w err ho] at h
      simp at h
    | ok db1 =>
      rw [loop_cons_ok sys c index n rest w db1 ho] at h ⊢
      cases k with
      | zero =>
        simp at hk
        subst hk
        simp only [Nat.add_zero] at hdb
        rw [ho] at hdb
        injection hdb with hdb
        subst hdb
        simp only [Nat.zero_add, List.drop_succ_cons, List.drop_zero] at hlast
        rw [loop_DbMapper_frame sys c _ rest _ n hlast, iterOk_DbMapper]
        simp
      | succ j =>
        simp only [List.getElem?_cons_succ] at hk
        simp only [List.drop_succ_cons] at hlast
        apply ih _ _ h j hk hlast
        rw [iterOk_opened]
        simp only [List.length_append, List.length_singleton]
        rw [← hdb]
        congr 1
        omega

theorem register_frame (m : String → Option δ) (entries : List (String × δ)) (name : String)
    (hn : name ∉ entries.map Prod.fst) : register m entries name = m name := by
  induction entries generalizing m with
  | nil => rfl
  | cons p rest ih =>
    simp only [List.map_cons, List.mem_cons, not_or] at hn
    unfold register at ih ⊢
    rw [List.foldl_cons, ih _ hn.2, Function.update_noteq hn.1]

/-- The loop on a list whose first failing open is the one after the names of `pre`:
it returns that error, has called the driver for the names up to the failing one
and no further, and has stored exactly the entries of `pre`. -/
theorem loop_fail (sys : Sys ε δ) (c : Config) (index : Nat) (pre : List (String × δ))
    (name : String) (post : List String) (w : World δ) (e : ε)
    (hok : ∀ j (hj : j < pre.length),
      sys.gormOpen (w.opened.length + j) (dsn c.Db pre[j].1) = .ok pre[j].2)
    (hfail : sys.gormOpen (w.opened.length + pre.length) (dsn c.Db name) = .error e) :
    (InitGorm.loop sys c index (pre.map Prod.fst ++ name :: post) w).1 = some e ∧
    (InitGorm.loop sys c index (pre.map Prod.fst ++ name :: post) w).2.opened
      = w.opened ++ (pre.map Prod.fst ++ [name]).map (dsn c.Db) ∧
    (InitGorm.loop sys c index (pre.map Prod.fst ++ name :: post) w).2.DbMapper
      = register w.DbMapper pre := by
  induction pre generalizing index w with
  | nil =>
    simp only [List.length_nil, Nat.add_zero] at hfail
    simp only [List.map_nil, List.nil_append]
    rw [loop_cons_error sys c index name post w e hfail]
    simp [register]
  | cons p rest ih =>
    have h0 : sys.gormOpen w.opened.length (dsn c.Db p.1) = .ok p.2 := by
      have := hok 0 (by simp)
      simpa using this
    simp only [List.map_cons, List.cons_append]
    rw [loop_cons_ok sys c index p.1 _ w p.2 h0]
    have hlen : (InitGorm.iterOk c index p.1 p.2 w).opened.length = w.opened.length + 1 := by
      rw [iterOk_opened]; simp
    have hok2 : ∀ j (hj : j < rest.length),
        sys.gormOpen ((InitGorm.iterOk c index p.1 p.2 w).opened.length + j)
          (dsn c.Db rest[j].1) = .ok rest[j].2 := by
      intro j hj
      have := hok (j + 1) (by simpa using hj)
      rw [hlen]
      simpa [Nat.add_assoc, Nat.add_comm 1 j] using this
    have hfail2 : sys.gormOpen ((InitGorm.iterOk c index p.1 p.2 w).opened.length + rest.length)
        (dsn c.Db name) = .error e := by
      rw [hlen]
      simpa [Nat.add_assoc, Nat.add_comm 1 rest.length] using hfail
    obtain ⟨h1, h2, h3⟩ := ih (index + 1) (InitGorm.iterOk c index p.1 p.2 w) hok2 hfail2
    refine ⟨h1, ?_, ?_⟩
    · rw [h2, iterOk_opened]; simp
    · rw [h3, iterOk_DbMapper]; rfl

/-- A member of a list has a last position in it. -/
theorem exists_last_position (l : List String) (name : String) (h : name ∈ l) :
    ∃ k, l[k]? = some name ∧ name ∉ l.drop (k + 1) := by
  induction l with
  | nil => simp at h
  | cons x xs ih =>
    by_cases hx : name ∈ xs
    · obtain ⟨k, hk, hd⟩ := ih hx
      exact ⟨k + 1, by simpa using hk, by simpa using hd⟩
    · have : name = x := by
        rcases List.mem_cons.mp h with h | h
        · exact h
        · exact absurd h hx
      subst this
      exact ⟨0, by simp, by simpa using hx⟩

/-- A run of `InitGorm` that returns nil opened the first name of the list, made
its handle the default, and went on with the loop from index 1. -/
theorem InitGorm_ok_first (sys : Sys ε δ) (c : Config) (w : World δ)
    (h : (InitGorm sys c w).1 = none) :
    ∃ first rest db, Split c.Db.DbName ',' = first :: rest ∧
      sys.gormOpen w.opened.length (dsn c.Db first) = .ok db ∧
      (InitGorm sys c w).2.DefaultDb = some db ∧
      InitGorm sys c w = InitGorm.loop sys c 1 rest (InitGorm.iterOk c 0 first db w) := by
  unfold InitGorm at h ⊢
  simp only at h ⊢
  cases hs : Split c.Db.DbName ',' with
  | nil => exact absurd hs (Split_ne_nil _ _)
  | cons first rest =>
    rw [hs] at h
    obtain ⟨db, hdb⟩ := loop_ok_opens sys c 0 (first :: rest) w h 0 first (by simp)
    simp only [Nat.add_zero] at hdb
    refine ⟨first, rest, db, rfl, hdb, ?_, ?_⟩
    · rw [loop_cons_ok sys c 0 first rest w db hdb, loop_DefaultDb sys c 1 rest _ (by decide),
        iterOk_DefaultDb_zero]
    · rw [loop_cons_ok sys c 0 first rest w db hdb]

theorem getElem?_opened (l : List String) (names : List String) (f : String → String)
    (k : Nat) : (l ++ names.map f)[l.length + k]? = (names[k]?).map f := by
  rw [List.getElem?_append_right (by omega)]
  simp

end Loop

/-! ## The database registry: theorems -/

section Registry

variable {ε δ : Type}

/-- C1. Whenever `InitGorm` returns nil, every name of the list obtained by splitting
`Db.DbName` on ',' has an entry in `resource.DbMapper`, and that entry is the handle
the driver returned for an open (the one at the last position `k` of the name) made
with the DSN `User:Password@tcp(Host:Port)/name?charset=utf8mb4&parseTime=True&loc=Local`
built from that same name. -/
theorem InitGorm_registers_every_name (sys : Sys ε δ) (c : Config) (w : World δ)
    (h : (InitGorm sys c w).1 = none) (name : String)
    (hn : name ∈ Split c.Db.DbName ',') :
    ∃ (k : Nat) (db : δ),
      (Split c.Db.DbName ',')[k]? = some name ∧
      (InitGorm sys c w).2.opened[w.opened.length + k]?
        = some (c.Db.User ++ ":" ++ c.Db.Password ++ "@tcp(" ++ c.Db.Host ++ ":" ++ c.Db.Port
            ++ ")/" ++ name ++ "?charset=utf8mb4&parseTime=True&loc=Local") ∧
      sys.gormOpen (w.opened.length + k)
          (c.Db.User ++ ":" ++ c.Db.Password ++ "@tcp(" ++ c.Db.Host ++ ":" ++ c.Db.Port
            ++ ")/" ++ name ++ "?charset=utf8mb4&parseTime=True&loc=Local") = .ok db ∧
      (InitGorm sys c w).2.DbMapper name = some db := by
  obtain ⟨k, hk, hlast⟩ := exists_last_position _ name hn
  have h2 : (InitGorm.loop sys c 0 (Split c.Db.DbName ',') w).1 = none := h
  obtain ⟨db, hdb⟩ := loop_ok_opens sys c 0 _ w h2 k name hk
  refine ⟨k, db, hk, ?_, hdb, ?_⟩
  · show (InitGorm.loop sys c 0 (Split c.Db.DbName ',') w).2.opened[w.opened.length + k]?
      = some (dsn c.Db name)
    rw [loop_ok_opened sys c 0 _ w h2, getElem?_opened, hk]
    rfl
  · exact loop_ok_last sys c 0 _ w h2 k name hk hlast db hdb

theorem InitGorm_registers_every_name_witness :
    (InitGorm demoSys demoConfig emptyWorld).1 = none ∧
    "a" ∈ Split demoConfig.Db.DbName ',' ∧
    ∃ (k : Nat) (db : Nat),
      (Split demoConfig.Db.DbName ',')[k]? = some "a" ∧
      (InitGorm demoSys demoConfig emptyWorld).2.opened[emptyWorld.opened.length + k]?
        = some (demoConfig.Db.User ++ ":" ++ demoConfig.Db.Password ++ "@tcp("
            ++ demoConfig.Db.Host ++ ":" ++ demoConfig.Db.Port
            ++ ")/" ++ "a" ++ "?charset=utf8mb4&parseTime=True&loc=Local") ∧
      demoSys.gormOpen (emptyWorld.opened.length + k)
          (demoConfig.Db.User ++ ":" ++ demoConfig.Db.Password ++ "@tcp("
            ++ demoConfig.Db.Host ++ ":" ++ demoConfig.Db.Port
            ++ ")/" ++ "a" ++ "?charset=utf8mb4&parseTime=True&loc=Local") = .ok db ∧
      (InitGorm demoSys demoConfig emptyWorld).2.DbMapper "a" = some db :=
  ⟨by decide, by decide,
    InitGorm_registers_every_name demoSys demoConfig emptyWorld (by decide) "a" (by decide)⟩

/-- C2. Whenever `InitGorm` returns nil, `resource.DefaultDb` is the handle returned by
the open made for the first name (index 0) of the comma-separated `Db.DbName` list, and no
later iteration reassigns it: after the loop has run over any non-empty prefix of the list
the default is that same handle, and an iteration at an index other than 0 never changes
`resource.DefaultDb`. -/
theorem InitGorm_default_is_first (sys : Sys ε δ) (c : Config) (w : World δ)
    (h : (InitGorm sys c w).1 = none) :
    ∃ (first : String) (db : δ),
      (Split c.Db.DbName ',')[0]? = some first ∧
      sys.gormOpen w.opened.length (dsn c.Db first) = .ok db ∧
      (InitGorm sys c w).2.DefaultDb = some db ∧
      (∀ m, 1 ≤ m →
        (InitGorm.loop sys c 0 ((Split c.Db.DbName ',').take m) w).2.DefaultDb = some db) ∧
      (∀ (index : Nat) (dbNames : List String) (w1 : World δ), index ≠ 0 →
        (InitGorm.loop sys c index dbNames w1).2.DefaultDb = w1.DefaultDb) := by
  obtain ⟨first, rest, db, hs, hdb, hdef, _⟩ := InitGorm_ok_first sys c w h
  refine ⟨first, db, by simp [hs], hdb, hdef, ?_, ?_⟩
  · intro m hm
    obtain ⟨j, rfl⟩ : ∃ j, m = j + 1 := ⟨m - 1, by omega⟩
    rw [hs, List.take_succ_cons, loop_cons_ok sys c 0 first _ w db hdb,
      loop_DefaultDb sys c 1 _ _ (by decide), iterOk_DefaultDb_zero]
  · intro index dbNames w1 hi
    exact loop_DefaultDb sys c index dbNames w1 hi

theorem InitGorm_default_is_first_witness :
    (InitGorm demoSys demoConfig emptyWorld).1 = none ∧
    ∃ (first : String) (db : Nat),
      (Split demoConfig.Db.DbName ',')[0]? = some first ∧
      demoSys.gormOpen emptyWorld.opened.length (dsn demoConfig.Db first) = .ok db ∧
      (InitGorm demoSys demoConfig emptyWorld).2.DefaultDb = some db ∧
      (∀ m, 1 ≤ m →
        (InitGorm.loop demoSys demoConfig 0 ((Split demoConfig.Db.DbName ',').take m)
          emptyWorld).2.DefaultDb = some db) ∧
      (∀ (index : Nat) (dbNames : List String) (w1 : World Nat), index ≠ 0 →
        (InitGorm.loop demoSys demoConfig index dbNames w1).2.DefaultDb = w1.DefaultDb) :=
  ⟨by decide, InitGorm_default_is_first demoSys demoConfig emptyWorld (by decide)⟩

/-- C7. If the open for the name at position `k` of the `Db.DbName` list is the first
that fails (the names before it are those of `pre`, whose opens returned the handles of
`pre`, so `k = pre.length`), `InitGorm` returns exactly the error the driver returned for
that name, has passed to the driver the DSNs of the first `k + 1` names and nothing more,
and leaves `resource.DbMapper` as it was apart from the entries of the names before
position `k`, which stay: every key that is not one of those names, the failing name
included, has the entry it had before. -/
theorem InitGorm_first_failure (sys : Sys ε δ) (c : Config) (w : World δ)
    (pre : List (String × δ)) (name : String) (post : List String) (e : ε)
    (hsplit : Split c.Db.DbName ',' = pre.map Prod.fst ++ name :: post)
    (hok : ∀ j (hj : j < pre.length),
      sys.gormOpen (w.opened.length + j) (dsn c.Db pre[j].1) = .ok pre[j].2)
    (hfail : sys.gormOpen (w.opened.length + pre.length) (dsn c.Db name) = .error e) :
    (InitGorm sys c w).1 = some e ∧
    (InitGorm sys c w).2.opened
      = w.opened ++ ((Split c.Db.DbName ',').take (pre.length + 1)).map (dsn c.Db) ∧
    (InitGorm sys c w).2.DbMapper = register w.DbMapper pre ∧
    (∀ key, key ∉ pre.map Prod.fst → (InitGorm sys c w).2.DbMapper key = w.DbMapper key) := by
  have hrun : InitGorm sys c w
      = InitGorm.loop sys c 0 (pre.map Prod.fst ++ name :: post) w := by
    unfold InitGorm
    simp only [hsplit]
  obtain ⟨h1, h2, h3⟩ := loop_fail sys c 0 pre name post w e hok hfail
  rw [hrun]
  refine ⟨h1, ?_, h3, ?_⟩
  · rw [h2, hsplit]
    congr 2
    have hl : (pre.map Prod.fst).length = pre.length := by simp
    rw [List.take_append_eq_append_take, List.take_of_length_le (by omega), hl]
    simp
  · intro key hkey
    rw [h3]
    exact register_frame w.DbMapper pre key hkey

theorem InitGorm_first_failure_witness :
    Split demoConfig.Db.DbName ',' = [("a", 0)].map Prod.fst ++ "b" :: ["a"] ∧
    failingSys.gormOpen (emptyWorld.opened.length + [("a", 0)].length)
      (dsn demoConfig.Db "b") = .error (dsn demoConfig.Db "b") ∧
    (InitGorm failingSys demoConfig emptyWorld).1 = some (dsn demoConfig.Db "b") ∧
    (InitGorm failingSys demoConfig emptyWorld).2.opened
      = emptyWorld.opened
          ++ ((Split demoConfig.Db.DbName ',').take ([("a", 0)].length + 1)).map
              (dsn demoConfig.Db) ∧
    (InitGorm failingSys demoConfig emptyWorld).2.DbMapper
      = register emptyWorld.DbMapper [("a", 0)] ∧
    (∀ key, key ∉ [("a", 0)].map Prod.fst →
      (InitGorm failingSys demoConfig emptyWorld).2.DbMapper key = emptyWorld.DbMapper key) :=
  ⟨by decide, rfl,
    InitGorm_first_failure failingSys demoConfig emptyWorld [("a", 0)] "b" ["a"]
      (dsn demoConfig.Db "b") (by decide)
      (by
        intro j hj
        have hj0 : j = 0 := by simpa using hj
        subst hj0
        rfl)
      rfl⟩

/-- C8. For every `Db.DbName` string, the empty one included, the list `InitGorm` iterates
over is non-empty: it has exactly one more element than the string has commas, and joining
it with commas gives the string back, so that empty and untrimmed names are kept (the empty
string gives the one empty name). Hence whenever `InitGorm` returns nil, the driver was
called once per element, at least once, the first call returned a handle, and
`resource.DefaultDb` holds it. -/
theorem InitGorm_opens_at_least_one (sys : Sys ε δ) (c : Config) (w : World δ) :
    (Split c.Db.DbName ',').length = Count c.Db.DbName ',' + 1 ∧
    Split c.Db.DbName ',' ≠ [] ∧
    Join (Split c.Db.DbName ',') ',' = c.Db.DbName ∧
    (c.Db.DbName = "" → Split c.Db.DbName ',' = [""]) ∧
    ((InitGorm sys c w).1 = none →
      (InitGorm sys c w).2.opened.length = w.opened.length + (Count c.Db.DbName ',' + 1) ∧
      ∃ (first : String) (db : δ),
        (Split c.Db.DbName ',')[0]? = some first ∧
        sys.gormOpen w.opened.length (dsn c.Db first) = .ok db ∧
        (InitGorm sys c w).2.DefaultDb = some db) := by
  refine ⟨Split_length _ _, Split_ne_nil _ _, Join_Split _ _, ?_, ?_⟩
  · intro h
    rw [h]
    decide
  · intro h
    constructor
    · have h2 : (InitGorm.loop sys c 0 (Split c.Db.DbName ',') w).1 = none := h
      show (InitGorm.loop sys c 0 (Split c.Db.DbName ',') w).2.opened.length = _
      rw [loop_ok_opened sys c 0 _ w h2]
      simp [Split_length]
    · obtain ⟨first, rest, db, hs, hdb, hdef, _⟩ := InitGorm_ok_first sys c w h
      exact ⟨first, db, by simp [hs], hdb, hdef⟩

theorem InitGorm_opens_at_least_one_witness :
    blankConfig.Db.DbName = "" ∧
    (InitGorm blankSys blankConfig emptyWorld).1 = none ∧
    Split blankConfig.Db.DbName ',' = [""] ∧
    ((InitGorm blankSys blankConfig emptyWorld).2.opened.length
        = emptyWorld.opened.length + (Count blankConfig.Db.DbName ',' + 1) ∧
      ∃ (first : String) (db : Nat),
        (Split blankConfig.Db.DbName ',')[0]? = some first ∧
        blankSys.gormOpen emptyWorld.opened.length (dsn blankConfig.Db first) = .ok db ∧
        (InitGorm blankSys blankConfig emptyWorld).2.DefaultDb = some db) :=
  ⟨by decide, by decide,
    (InitGorm_opens_at_least_one blankSys blankConfig emptyWorld).2.2.2.1 (by decide),
    (InitGorm_opens_at_least_one blankSys blankConfig emptyWorld).2.2.2.2 (by decide)⟩

/-- C9. Whenever `InitGorm` returns nil: if the first name of the `Db.DbName` list does not
occur again later in the list, the handle stored in `resource.DbMapper` under that name is
`resource.DefaultDb` (which is not nil); and for any name, repeated or not,
`resource.DbMapper` holds the handle returned by the open made at the last position of the
name in the list. -/
theorem InitGorm_entry_of_first_and_repeated (sys : Sys ε δ) (c : Config) (w : World δ)
    (h : (InitGorm sys c w).1 = none) :
    (∀ first, (Split c.Db.DbName ',')[0]? = some first →
      first ∉ (Split c.Db.DbName ',').drop 1 →
      (InitGorm sys c w).2.DefaultDb ≠ none ∧
      (InitGorm sys c w).2.DbMapper first = (InitGorm sys c w).2.DefaultDb) ∧
    (∀ k name, (Split c.Db.DbName ',')[k]? = some name →
      name ∉ (Split c.Db.DbName ',').drop (k + 1) →
      ∃ db, sys.gormOpen (w.opened.length + k) (dsn c.Db name) = .ok db ∧
        (InitGorm sys c w).2.DbMapper name = some db) := by
  have h2 : (InitGorm.loop sys c 0 (Split c.Db.DbName ',') w).1 = none := h
  have hlast : ∀ k name, (Split c.Db.DbName ',')[k]? = some name →
      name ∉ (Split c.Db.DbName ',').drop (k + 1) →
      ∃ db, sys.gormOpen (w.opened.length + k) (dsn c.Db name) = .ok db ∧
        (InitGorm sys c w).2.DbMapper name = some db := by
    intro k name hk hl
    obtain ⟨db, hdb⟩ := loop_ok_opens sys c 0 _ w h2 k name hk
    exact ⟨db, hdb, loop_ok_last sys c 0 _ w h2 k name hk hl db hdb⟩
  refine ⟨?_, hlast⟩
  intro first hfirst hno
  obtain ⟨f, rest, db, hs, hdb, hdef, _⟩ := InitGorm_ok_first sys c w h
  have hf : f = first := by
    rw [hs] at hfirst
    simpa using hfirst
  subst hf
  obtain ⟨db2, hdb2, hm⟩ := hlast 0 f hfirst hno
  simp only [Nat.add_zero] at hdb2
  rw [hdb] at hdb2
  injection hdb2 with hdb2
  subst hdb2
  rw [hdef, hm]
  exact ⟨by simp, rfl⟩

theorem InitGorm_entry_of_first_and_repeated_witness :
    (InitGorm repeatSys repeatConfig emptyWorld).1 = none ∧
    (Split repeatConfig.Db.DbName ',')[0]? = some "a" ∧
    "a" ∉ (Split repeatConfig.Db.DbName ',').drop 1 ∧
    (Split repeatConfig.Db.DbName ',')[2]? = some "b" ∧
    "b" ∉ (Split repeatConfig.Db.DbName ',').drop (2 + 1) ∧
    ((InitGorm repeatSys repeatConfig emptyWorld).2.DefaultDb ≠ none ∧
      (InitGorm repeatSys repeatConfig emptyWorld).2.DbMapper "a"
        = (InitGorm repeatSys repeatConfig emptyWorld).2.DefaultDb) ∧
    (∃ db, repeatSys.gormOpen (emptyWorld.opened.length + 2) (dsn repeatConfig.Db "b") = .ok db ∧
      (InitGorm repeatSys repeatConfig emptyWorld).2.DbMapper "b" = some db) :=
  ⟨by decide, by decide, by decide, by decide, by decide,
    (InitGorm_entry_of_first_and_repeated repeatSys repeatConfig emptyWorld (by decide)).1 "a"
      (by decide) (by decide),
    (InitGorm_entry_of_first_and_repeated repeatSys repeatConfig emptyWorld (by decide)).2 2 "b"
      (by decide) (by decide)⟩

end Registry

/-! ## `InitConfig`: theorems -/



theorem InitConfig_viper {ε δ : Type} (sys : Sys ε δ) (w : World δ) :
    (InitConfig sys w).2.viper = viperSetup (sys.Getenv "HRMS_ENV") := by
  unfold InitConfig
  simp only
  split
  · rfl
  · split <;> rfl

theorem configNames_viperSetup (env : String) :
    configNames (viperSetup env)
      = (if env = "" ∨ env = "dev" then ["config-dev"] else [])
        ++ (if env = "prod" then ["config-prod"] else []) := by
  unfold viperSetup configNames
  by_cases h1 : env = "" ∨ env = "dev" <;> by_cases h2 : env = "prod" <;>
    simp [h1, h2, List.filterMap_cons, List.filterMap_append]

theorem viperSetup_eq (env : String) :
    viperSetup env
      = [ViperCall.AddConfigPath "./config", ViperCall.SetConfigType "yaml"]
        ++ (configNames (viperSetup env)).map ViperCall.SetConfigName := by
  rw [configNames_viperSetup]
  unfold viperSetup
  by_cases h1 : env = "" ∨ env = "dev" <;> by_cases h2 : env = "prod" <;> simp [h1, h2]

/-- C3. For every value of the `HRMS_ENV` environment variable, the names `InitConfig`
gives to `SetConfigName` on its viper instance are exactly "config-dev" if and only if the
value is empty or equal to "dev", and exactly "config-prod" if and only if the value is
equal to "prod"; the two are never both set, and for every other value no name is set.
Apart from these the instance only gets its path and type, and it is this instance the
configuration is read through. -/
theorem InitConfig_config_name {ε δ : Type} (sys : Sys ε δ) (w : World δ) :
    (configNames (InitConfig sys w).2.viper = ["config-dev"]
      ↔ sys.Getenv "HRMS_ENV" = "" ∨ sys.Getenv "HRMS_ENV" = "dev") ∧
    (configNames (InitConfig sys w).2.viper = ["config-prod"]
      ↔ sys.Getenv "HRMS_ENV" = "prod") ∧
    ¬ ("config-dev" ∈ configNames (InitConfig sys w).2.viper ∧
        "config-prod" ∈ configNames (InitConfig sys w).2.viper) ∧
    (sys.Getenv "HRMS_ENV" ≠ "" → sys.Getenv "HRMS_ENV" ≠ "dev" →
      sys.Getenv "HRMS_ENV" ≠ "prod" → configNames (InitConfig sys w).2.viper = []) ∧
    (InitConfig sys w).2.viper
      = [ViperCall.AddConfigPath "./config", ViperCall.SetConfigType "yaml"]
        ++ (configNames (InitConfig sys w).2.viper).map ViperCall.SetConfigName ∧
    (∀ e, sys.ReadInConfig (InitConfig sys w).2.viper = some e →
      (InitConfig sys w).1 = some e) ∧
    ((InitConfig sys w).1 = none
      ↔ sys.ReadInConfig (InitConfig sys w).2.viper = none ∧
        ∃ c, sys.Unmarshal (InitConfig sys w).2.viper = .ok c) := by
  have hv := InitConfig_viper sys w
  have hn := configNames_viperSetup (sys.Getenv "HRMS_ENV")
  rw [hv, hn]
  have hdp : ¬ ((sys.Getenv "HRMS_ENV" = "" ∨ sys.Getenv "HRMS_ENV" = "dev")
      ∧ sys.Getenv "HRMS_ENV" = "prod") := by
    rintro ⟨h1 | h1, h2⟩ <;> rw [h1] at h2 <;> exact absurd h2 (by decide)
  refine ⟨?_, ?_, ?_, ?_, ?_, ?_, ?_⟩
  · by_cases h1 : sys.Getenv "HRMS_ENV" = "" ∨ sys.Getenv "HRMS_ENV" = "dev" <;>
      by_cases h2 : sys.Getenv "HRMS_ENV" = "prod"
    · exact absurd ⟨h1, h2⟩ hdp
    · simp [h1, h2]
    · simp [h1, h2]
    · simp [h1, h2]
  · by_cases h1 : sys.Getenv "HRMS_ENV" = "" ∨ sys.Getenv "HRMS_ENV" = "dev" <;>
      by_cases h2 : sys.Getenv "HRMS_ENV" = "prod"
    · exact absurd ⟨h1, h2⟩ hdp
    · simp [h1, h2]
    · simp [h1, h2]
    · simp [h1, h2]
  · by_cases h1 : sys.Getenv "HRMS_ENV" = "" ∨ sys.Getenv "HRMS_ENV" = "dev" <;>
      by_cases h2 : sys.Getenv "HRMS_ENV" = "prod"
    · exact absurd ⟨h1, h2⟩ hdp
    · simp [h1, h2]
    · simp [h1, h2]
    · simp [h1, h2]
  · intro h0 h1 h2
    simp [h0, h1, h2]
  · rw [← hn]
    exact viperSetup_eq _
  · intro e he
    unfold InitConfig
    simp only [he]
  · unfold InitConfig
    simp only
    cases hr : sys.ReadInConfig (viperSetup (sys.Getenv "HRMS_ENV")) with
    | some e => simp
    | none =>
      cases hu : sys.Unmarshal (viperSetup (sys.Getenv "HRMS_ENV")) with
      | error e => simp
      | ok c => simp

theorem InitConfig_config_name_witness :
    stagingSys.Getenv "HRMS_ENV" ≠ "" ∧ stagingSys.Getenv "HRMS_ENV" ≠ "dev" ∧
    stagingSys.Getenv "HRMS_ENV" ≠ "prod" ∧
    configNames (InitConfig stagingSys emptyWorld).2.viper = [] :=
  ⟨by decide, by decide, by decide,
    (InitConfig_config_name stagingSys emptyWorld).2.2.2.1 (by decide) (by decide) (by decide)⟩

/-! ## `main`: theorems -/

/-- When `InitConfig` returns nil it has stored the unmarshalled configuration. -/
theorem InitConfig_ok {ε δ : Type} (sys : Sys ε δ) (w w1 : World δ)
    (h : InitConfig sys w = (none, w1)) : ∃ c, w1.HrmsConf = some c := by
  unfold InitConfig at h
  simp only at h
  split at h
  · simp at h
  · split at h
    · simp at h
    · rename_i config _
      simp only [Prod.mk.injEq, true_and] at h
      exact ⟨config, by rw [← h]⟩

/-- `InitGorm` never assigns `resource.HrmsConf`. -/
theorem InitGorm_HrmsConf {ε δ : Type} (sys : Sys ε δ) (c : Config) (w : World δ) :
    (InitGorm sys c w).2.HrmsConf = w.HrmsConf :=
  loop_HrmsConf sys c 0 _ w

/-- A panic inside `InitGin` is the one of the template loading. -/
theorem InitGin_panicked {ε δ : Type} (sys : Sys ε δ) (c : Config) (w w1 : World δ) (v : ε)
    (h : InitGin sys c w = (.panicked v, w1)) : sys.ParseGlob "views/*" = some v := by
  unfold InitGin htmlInit at h
  simp only at h
  cases hp : sys.ParseGlob "views/*" with
  | none => simp [hp] at h
  | some v2 =>
    simp [hp] at h
    rw [h.1]

/-- When the templates load, `InitGin` hands `routeTable` to `server.Run` and returns
what `server.Run` returns. -/
theorem InitGin_routes {ε δ : Type} (sys : Sys ε δ) (c : Config) (w : World δ)
    (h : sys.ParseGlob "views/*" = none) :
    ∃ server, server.routes = routeTable ∧
      InitGin sys c w = (.returned (sys.Run (":" ++ c.Gin.Port) server), w) := by
  refine ⟨routerInit ⟨(StaticFS "/views" "./views" (StaticFS "/static" "./static"
    ginDefault)).routes, some "views/*", some ⟨404, "404.html"⟩⟩, ?_, ?_⟩
  · rfl
  · unfold InitGin htmlInit
    simp only [h]



/-- C4, as stated, fails: when no file matches the template pattern, `LoadHTMLGlob`
panics inside `InitGin`; `main` then ends in a panic although `InitConfig` and `InitGorm`
returned nil and `InitGin` returned nothing, so no step returned a non-nil error. -/
theorem main_panics_without_step_error :
    ¬ ((main noViewsSys emptyWorld).aborted = true
        ↔ (main noViewsSys emptyWorld).stepErred = true) ∧
    (main noViewsSys emptyWorld).outcome
      = Outcome.stepPanicked "html/template: pattern matches no files" ∧
    (main noViewsSys emptyWorld).steps
      = [(Step.InitConfig, StepResult.returned none), (Step.InitGorm, StepResult.returned none),
         (Step.InitGin, StepResult.panicked "html/template: pattern matches no files")] := by
  decide

/-- C4, amended. `main` runs `InitConfig`, then `InitGorm`, then `InitGin`, in that order
(the steps it called are a non-empty prefix of that sequence, each recorded with what the
function did in the state its predecessors left, and a step before `InitGin` that returned
nil is followed by the next one); it aborts with `panic(err)` if and only if one of the
steps returned the non-nil error `err`; a step that returned an error is the last one
called. The only other abort is a panic raised inside `InitGin` by `LoadHTMLGlob("views/*")`,
after `InitConfig` and `InitGorm` returned nil. `main` returns exactly when all three steps
returned nil, and it never fails on a nil `resource.HrmsConf`. -/
theorem main_runs_steps_in_order {ε δ : Type} (sys : Sys ε δ) (w : World δ) :
    (main sys w).steps.map Prod.fst <+: [Step.InitConfig, Step.InitGorm, Step.InitGin] ∧
    (main sys w).steps[0]? = some (Step.InitConfig, .returned (InitConfig sys w).1) ∧
    (∀ x, (main sys w).steps[1]? = some x →
      ∃ c, (InitConfig sys w).2.HrmsConf = some c ∧
        x = (Step.InitGorm, .returned (InitGorm sys c (InitConfig sys w).2).1)) ∧
    (∀ x, (main sys w).steps[2]? = some x →
      ∃ c, (InitConfig sys w).2.HrmsConf = some c ∧
        x = (Step.InitGin, (InitGin sys c (InitGorm sys c (InitConfig sys w).2).2).1)) ∧
    (∀ i s, (main sys w).steps[i]? = some (s, .returned none) → i < 2 →
      i + 1 < (main sys w).steps.length) ∧
    (∀ e, (main sys w).outcome = Outcome.panicked e
      ↔ ∃ s, (s, StepResult.returned (some e)) ∈ (main sys w).steps) ∧
    (∀ i s e, (main sys w).steps[i]? = some (s, .returned (some e)) →
      (main sys w).steps.length = i + 1) ∧
    (∀ v, (main sys w).outcome = Outcome.stepPanicked v
      ↔ (Step.InitGin, StepResult.panicked v) ∈ (main sys w).steps) ∧
    (∀ s v, (s, StepResult.panicked v) ∈ (main sys w).steps →
      s = Step.InitGin ∧ sys.ParseGlob "views/*" = some v ∧
      (main sys w).steps
        = [(Step.InitConfig, .returned none), (Step.InitGorm, .returned none),
           (Step.InitGin, .panicked v)]) ∧
    ((main sys w).outcome = Outcome.returned
      ↔ (main sys w).steps
        = [(Step.InitConfig, .returned none), (Step.InitGorm, .returned none),
           (Step.InitGin, .returned none)]) ∧
    (main sys w).outcome ≠ Outcome.nilDeref := by
  rcases hc : InitConfig sys w with ⟨_ | e1, w1⟩
  · obtain ⟨c, hconf⟩ := InitConfig_ok sys w w1 hc
    have hconf2 : (InitGorm sys c w1).2.HrmsConf = some c := by
      rw [InitGorm_HrmsConf, hconf]
    rcases hg : InitGorm sys c w1 with ⟨_ | e2, w2⟩
    · rw [hg] at hconf2
      simp only at hconf2
      rcases hs : InitGin sys c w2 with ⟨(_ | e3) | v, w3⟩
      · have hm : main sys w = ⟨.returned, w3,
            [(.InitConfig, .returned none), (.InitGorm, .returned none),
             (.InitGin, .returned none)]⟩ := by
          simp only [main, hc, hconf, hg, hconf2, hs]
        rw [hm]
        refine ⟨by simp, by simp, ?_, ?_, ?_, by simp, ?_, by simp, by simp, by simp, by simp⟩
        · intro x hx
          exact ⟨c, hconf, by simpa [hg] using hx.symm⟩
        · intro x hx
          exact ⟨c, hconf, by simpa [hg, hs] using hx.symm⟩
        · intro i s hi hlt
          simp only [List.length_cons, List.length_nil]
          omega
        · intro i s e hi
          rcases i with _ | _ | _ | i <;> simp at hi
      · have hm : main sys w = ⟨.panicked e3, w3,
            [(.InitConfig, .returned none), (.InitGorm, .returned none),
             (.InitGin, .returned (some e3))]⟩ := by
          simp only [main, hc, hconf, hg, hconf2, hs]
        rw [hm]
        refine ⟨by simp, by simp, ?_, ?_, ?_, ?_, ?_, by simp, by simp, by simp, by simp⟩
        · intro x hx
          exact ⟨c, hconf, by simpa [hg] using hx.symm⟩
        · intro x hx
          exact ⟨c, hconf, by simpa [hg, hs] using hx.symm⟩
        · intro i s hi hlt
          simp only [List.length_cons, List.length_nil]
          omega
        · intro e
          simp [eq_comm]
        · intro i s e hi
          rcases i with _ | _ | _ | i <;> simp at hi ⊢
      · have hm : main sys w = ⟨.stepPanicked v, w3,
            [(.InitConfig, .returned none), (.InitGorm, .returned none),
             (.InitGin, .panicked v)]⟩ := by
          simp only [main, hc, hconf, hg, hconf2, hs]
        have hpg := InitGin_panicked sys c w2 w3 v hs
        rw [hm]
        refine ⟨by simp, by simp, ?_, ?_, ?_, by simp, ?_, ?_, ?_, by simp, by simp⟩
        · intro x hx
          exact ⟨c, hconf, by simpa [hg] using hx.symm⟩
        · intro x hx
          exact ⟨c, hconf, by simpa [hg, hs] using hx.symm⟩
        · intro i s hi hlt
          simp only [List.length_cons, List.length_nil]
          omega
        · intro i s e hi
          rcases i with _ | _ | _ | i <;> simp at hi
        · intro v2
          simp [eq_comm]
        · intro s v2 hmem
          simp at hmem
          obtain ⟨hs2, hv2⟩ := hmem
          subst hs2 hv2
          exact ⟨rfl, hpg, rfl⟩
    · have hm : main sys w = ⟨.panicked e2, w2,
          [(.InitConfig, .returned none), (.InitGorm, .returned (some e2))]⟩ := by
        simp only [main, hc, hconf, hg]
      rw [hm]
      refine ⟨?_, by simp, ?_, by simp, ?_, ?_, ?_, by simp, by simp, by simp, by simp⟩
      · exact ⟨[Step.InitGin], rfl⟩
      · intro x hx
        exact ⟨c, hconf, by simpa [hg] using hx.symm⟩
      · intro i s hi hlt
        rcases i with _ | _ | i <;> simp at hi ⊢
      · intro e
        simp [eq_comm]
      · intro i s e hi
        rcases i with _ | _ | i <;> simp at hi ⊢
  · have hm : main sys w = ⟨.panicked e1, w1, [(.InitConfig, .returned (some e1))]⟩ := by
      simp only [main, hc]
    rw [hm]
    refine ⟨?_, by simp, by simp, by simp, ?_, ?_, ?_, by simp, by simp, by simp, by simp⟩
    · exact ⟨[Step.InitGorm, Step.InitGin], rfl⟩
    · intro i s hi hlt
      rcases i with _ | i <;> simp at hi
    · intro e
      simp [eq_comm]
    · intro i s e hi
      rcases i with _ | i <;> simp at hi ⊢

theorem main_runs_steps_in_order_witness :
    (main failingSys emptyWorld).steps[1]?
      = some (Step.InitGorm, StepResult.returned (some (dsn demoConfig.Db "b"))) ∧
    (main failingSys emptyWorld).steps.length = 1 + 1 ∧
    (main demoSys emptyWorld).steps[1]? = some (Step.InitGorm, StepResult.returned none) ∧
    1 + 1 < (main demoSys emptyWorld).steps.length ∧
    (Step.InitGin, StepResult.panicked "html/template: pattern matches no files")
      ∈ (main noViewsSys emptyWorld).steps ∧
    noViewsSys.ParseGlob "views/*" = some "html/template: pattern matches no files" :=
  ⟨by decide,
    (main_runs_steps_in_order failingSys emptyWorld).2.2.2.2.2.2.1 1 Step.InitGorm
      (dsn demoConfig.Db "b") (by decide),
    by decide,
    (main_runs_steps_in_order demoSys emptyWorld).2.2.2.2.1 1 Step.InitGorm (by decide)
      (by decide),
    by decide,
    ((main_runs_steps_in_order noViewsSys emptyWorld).2.2.2.2.2.2.2.2.1 Step.InitGin
      "html/template: pattern matches no files" (by decide)).2.1⟩

/-! ## The route table: theorems -/

/-- C5, as stated, fails: not every entity route group has a create, an edit, a delete and
a query endpoint. The company group has the single route GET /company/query and the
password group the two routes GET /password/query/:staff_id and POST /password/edit. -/
theorem not_every_group_has_all_four :
    ¬ (∀ g ∈ entityGroups, hasAllFour routeTable g = true) ∧
    routeTable.filter (under "/company")
      = [⟨Method.GET, "/company/query", "handler.BranchCompanyQuery"⟩] ∧
    routeTable.filter (under "/password")
      = [⟨Method.GET, "/password/query/:staff_id", "handler.PasswordQuery"⟩,
         ⟨Method.POST, "/password/edit", "handler.PasswordEdit"⟩] := by
  decide

/-- C5, amended. The groups depart, rank, staff, notification, salary and salary_record
each have a POST create endpoint, a POST edit endpoint, a DELETE delete endpoint and a GET
query endpoint under their path prefix. The password group has a POST edit and a GET query
endpoint and neither a create nor a delete endpoint; the authority group has a POST create,
a POST edit and a GET query endpoint and no delete endpoint; the company group has a GET
query endpoint and no create, edit or delete endpoint. -/
theorem entity_group_endpoints :
    (∀ g ∈ ["/depart", "/rank", "/staff", "/notification", "/salary", "/salary_record"],
      hasEndpoint routeTable Method.POST g "create" = true ∧
      hasEndpoint routeTable Method.POST g "edit" = true ∧
      hasEndpoint routeTable Method.DELETE g "del" = true ∧
      hasEndpoint routeTable Method.GET g "query" = true) ∧
    (hasEndpoint routeTable Method.POST "/password" "edit" = true ∧
      hasEndpoint routeTable Method.GET "/password" "query" = true ∧
      hasKind routeTable "/password" "create" = false ∧
      hasKind routeTable "/password" "del" = false ∧
      hasMethod routeTable Method.DELETE "/password" = false) ∧
    (hasEndpoint routeTable Method.POST "/authority" "create" = true ∧
      hasEndpoint routeTable Method.POST "/authority" "edit" = true ∧
      hasEndpoint routeTable Method.GET "/authority" "query" = true ∧
      hasKind routeTable "/authority" "del" = false ∧
      hasMethod routeTable Method.DELETE "/authority" = false) ∧
    (hasEndpoint routeTable Method.GET "/company" "query" = true ∧
      hasKind routeTable "/company" "create" = false ∧
      hasKind routeTable "/company" "edit" = false ∧
      hasKind routeTable "/company" "del" = false ∧
      hasMethod routeTable Method.DELETE "/company" = false) := by
  decide

theorem entity_group_endpoints_witness :
    "/salary_record" ∈ ["/depart", "/rank", "/staff", "/notification", "/salary", "/salary_record"] ∧
    hasEndpoint routeTable Method.POST "/salary_record" "create" = true ∧
    hasEndpoint routeTable Method.POST "/salary_record" "edit" = true ∧
    hasEndpoint routeTable Method.DELETE "/salary_record" "del" = true ∧
    hasEndpoint routeTable Method.GET "/salary_record" "query" = true :=
  ⟨by decide, entity_group_endpoints.1 "/salary_record" (by decide)⟩

end Hrms
